import Mathlib

/-!
Shallow embedding of the flux-dao governance contract (src/src/lib.rs,
src/src/proposal.rs, src/src/proposal_status.rs, src/src/utils.rs).

Machine integers (u64 counters and timestamps, u128 balances) are modelled
as `Nat`: every arithmetic operation the contract performs on values it
controls is an increment of a counter bounded by the number of distinct
voters, or an addition of configuration values, so no wrap-around is
reachable there. The one u64 addition of two caller-supplied values —
`from_index + limit` in `get_proposals` — can wrap, and is modelled with an
explicit `% 2^64` (`u64_wrapping_add`).

Panics (`assert!`, `env::panic`, `expect`) abort and revert the whole call
on NEAR, so fallible operations are modelled as `Except String` returning
either an error message (state unchanged) or the updated state.
-/

/-- A vote: yes or no (types.rs is absent from src; the two variants are
pinned by `match vote { Vote::Yes .. Vote::No .. }` in lib.rs). -/
inductive Vote where
  | Yes
  | No
deriving DecidableEq, Repr

/-- Modelled from the spec: types.rs / policy_item.rs are absent from src.
A rule's vote requirement is either an absolute count or a ratio
(numerator / denominator) of the current council size. -/
inductive NumOrRatio where
  | Number (n : Nat)
  | Ratio (num den : Nat)
deriving DecidableEq, Repr

/-- Modelled from the spec: policy_item.rs is absent from src. A policy rule
is an amount ceiling together with a vote requirement. -/
structure PolicyItem where
  max_amount : Nat
  votes : NumOrRatio
deriving DecidableEq, Repr

/-- Modelled from the spec: policy_item.rs is absent from src. "A ratio
requirement is evaluated as ceil(numerator * council_size / denominator)";
an absolute requirement is returned directly. -/
def PolicyItem.num_votes (p : PolicyItem) (num_council : Nat) : Nat :=
  match p.votes with
  | NumOrRatio.Number n => n
  | NumOrRatio.Ratio num den => (num * num_council + den - 1) / den

/-- Default rule used only to total the partial indexing
`policy[policy.len() - 1]` (which panics in Rust on an empty policy; every
claim about it carries a nonempty-policy hypothesis). -/
def PolicyItem.dflt : PolicyItem :=
  { max_amount := 0, votes := NumOrRatio.Number 0 }

/-- Proposal status (proposal_status.rs plus the two terminal statuses
`Rejected` and `Finalized` that lib.rs stores; the 0.5 revision of
proposal_status.rs declaring them is absent from src). -/
inductive ProposalStatus where
  | Vote
  | Success
  | Reject
  | Fail
  | Delay
  | Rejected
  | Finalized
deriving DecidableEq, Repr

/-- `is_finalized` from the in-src (pre-0.5) proposal_status.rs:
`self != Vote && self != Delay`. -/
def ProposalStatus.is_finalized (s : ProposalStatus) : Bool :=
  s != ProposalStatus.Vote && s != ProposalStatus.Delay

/-- Modelled from the spec: the 0.5 proposal_status.rs declaring
`is_finished` is absent from src. A proposal is finished once it has reached
a fully terminal state — `Finalized` (accepted and confirmed) or `Rejected`.
This is the reading pinned by the in-src tests: a `Success` proposal is
finalized afterwards (test_add_new_council_proposal), a `Reject`-resolving
proposal is finalized to `Rejected` (test_change_bond_proposal_fail), and a
pending `Success` delegated proposal may be re-submitted
(spec 4.4.2: the follow-up action after an external failure). -/
def ProposalStatus.is_finished (s : ProposalStatus) : Bool :=
  s == ProposalStatus.Finalized || s == ProposalStatus.Rejected

/-- Proposal kinds of lib.rs (the 0.5 revision of proposal.rs is absent from
src; the variants and their fields are pinned by the exhaustive matches and
tests in lib.rs). Account ids are strings; balances and durations are `Nat`. -/
inductive ProposalKind where
  | NewCouncil (target : String)
  | RemoveCouncil (target : String)
  | Payout (target : String) (amount : Nat)
  | ChangeVotePeriod (vote_period : Nat)
  | ChangeBond (bond : Nat)
  | ChangePolicy (policy : PolicyItem)
  | ChangePurpose (purpose : String)
  | ResoluteMarket (market_id : Nat) (payout_numerator : Option (List Nat))
  | ChangeProtocolAddress (address : String)
  | SetTokenWhitelist (whitelist : List String)
  | AddTokenWhitelist (to_add : String)
  | SetGov (new_gov : String)
  | PauseProtocol
  | UnpauseProtocol
deriving DecidableEq, Repr

/-- A proposal (proposal.rs / lib.rs). `votes` models the
`HashMap<AccountId, Vote>`: keys are kept unique because the contract only
inserts after asserting the key absent. -/
structure Proposal where
  status : ProposalStatus
  proposer : String
  description : String
  kind : ProposalKind
  last_vote : Nat
  vote_period_end : Nat
  vote_yes : Nat
  vote_no : Nat
  votes : List (String × Vote)
deriving DecidableEq, Repr

/-- `Proposal::get_amount` (proposal.rs): the amount of a payout, nothing
otherwise. -/
def Proposal.get_amount (p : Proposal) : Option Nat :=
  match p.kind with
  | ProposalKind.Payout _ amount => some amount
  | _ => none

/-- `vote_requirement` (utils.rs): with an amount, the requirement of the
first rule whose ceiling strictly exceeds it; otherwise (or when no rule
matches) the requirement of the last rule (`policy[policy.len() - 1]`,
totalized with `PolicyItem.dflt`). -/
def vote_requirement (policy : List PolicyItem) (num_council : Nat)
    (amount : Option Nat) : Nat :=
  match amount with
  | some a =>
    match policy.find? (fun it => decide (a < it.max_amount)) with
    | some it => it.num_votes num_council
    | none => (policy.getD (policy.length - 1) PolicyItem.dflt).num_votes num_council
  | none => (policy.getD (policy.length - 1) PolicyItem.dflt).num_votes num_council

/-- `Proposal::vote_status` (proposal.rs, list-policy revision): the
resolution cascade. `now` stands for `env::block_timestamp()`. -/
def Proposal.vote_status (p : Proposal) (policy : List PolicyItem)
    (num_council : Nat) (now : Nat) : ProposalStatus :=
  let votes_required := vote_requirement policy num_council p.get_amount
  let max_votes := (policy.getD (policy.length - 1) PolicyItem.dflt).num_votes num_council
  if max_votes ≤ p.vote_yes then
    ProposalStatus.Success
  else if votes_required ≤ p.vote_yes ∧ p.vote_no = 0 then
    if p.vote_period_end < now then ProposalStatus.Success else ProposalStatus.Delay
  else if max_votes ≤ p.vote_no then
    ProposalStatus.Reject
  else if p.vote_period_end < now ∨ p.vote_yes + p.vote_no = num_council then
    ProposalStatus.Fail
  else
    ProposalStatus.Vote

/-! ### Spec-side definitions (written from the claim's words, for the
refinement claim C1) -/

/-- Spec wording, recursive scan: "scans in ceiling order and returns the
requirement of the first rule whose ceiling strictly exceeds `amount`". -/
def requiredVotesScan (policy : List PolicyItem) (num_council : Nat)
    (a : Nat) (dflt : Nat) : Nat :=
  match policy with
  | [] => dflt
  | it :: rest =>
    if a < it.max_amount then it.num_votes num_council
    else requiredVotesScan rest num_council a dflt

/-- Spec wording: `requiredVotes(policy, councilSize, amount?)`, "defaulting
to the highest-ceiling rule if `amount` is absent or exceeds every
ceiling". -/
def requiredVotes (policy : List PolicyItem) (num_council : Nat)
    (amount : Option Nat) : Nat :=
  let highest := (policy.getLastD PolicyItem.dflt).num_votes num_council
  match amount with
  | none => highest
  | some a => requiredVotesScan policy num_council a highest

/-- Spec wording: the requirement of the maximum rule (the highest-ceiling
rule used as an absolute pass/fail bound). -/
def maxRuleVotes (policy : List PolicyItem) (num_council : Nat) : Nat :=
  (policy.getLastD PolicyItem.dflt).num_votes num_council

/-- The resolution cascade exactly as the claim states it. -/
def resolveSpec (p : Proposal) (policy : List PolicyItem)
    (num_council : Nat) (now : Nat) : ProposalStatus :=
  if p.vote_yes ≥ maxRuleVotes policy num_council then
    ProposalStatus.Success
  else if p.vote_yes ≥ requiredVotes policy num_council p.get_amount ∧ p.vote_no = 0 then
    if now > p.vote_period_end then ProposalStatus.Success else ProposalStatus.Delay
  else if p.vote_no ≥ maxRuleVotes policy num_council then
    ProposalStatus.Reject
  else if now > p.vote_period_end ∨ p.vote_yes + p.vote_no = num_council then
    ProposalStatus.Fail
  else
    ProposalStatus.Vote

/-! ### Bridging lemmas -/

theorem getD_last_eq_getLastD (l : List PolicyItem) :
    l.getD (l.length - 1) PolicyItem.dflt = l.getLastD PolicyItem.dflt := by
  induction l with
  | nil => rfl
  | cons x xs ih =>
    cases xs with
    | nil => rfl
    | cons y ys =>
      have h1 : (x :: y :: ys).length - 1 = (y :: ys).length - 1 + 1 := by
        simp
      rw [h1, List.getD_cons_succ, ih]
      simp [List.getLastD_eq_getLast?, List.getLast?_cons_cons]

theorem find_eq_scan (policy : List PolicyItem) (num_council a dflt : Nat) :
    (match policy.find? (fun it => decide (a < it.max_amount)) with
      | some it => it.num_votes num_council
      | none => dflt) = requiredVotesScan policy num_council a dflt := by
  induction policy with
  | nil => rfl
  | cons it rest ih =>
    rw [List.find?_cons]
    by_cases h : a < it.max_amount
    · simp [h, requiredVotesScan]
    · rw [show (decide (a < it.max_amount)) = false from decide_eq_false h]
      simp only [requiredVotesScan, if_neg h]
      exact ih

theorem vote_requirement_eq_requiredVotes (policy : List PolicyItem)
    (num_council : Nat) (amount : Option Nat) :
    vote_requirement policy num_council amount =
      requiredVotes policy num_council amount := by
  cases amount with
  | none =>
    simp only [vote_requirement, requiredVotes]
    rw [getD_last_eq_getLastD]
  | some a =>
    simp only [vote_requirement, requiredVotes]
    rw [getD_last_eq_getLastD]
    exact find_eq_scan policy num_council a _

/-- C1: For every proposal, policy, council size and current time, the
resolution outcome computed by `vote_status` follows exactly the spec's
cascade: supermajority yes → Success; uncontested minimum → Success past
the deadline, Delay before it; supermajority no → Reject; deadline elapsed
or full turnout → Fail; otherwise still Vote. -/
theorem vote_status_eq_resolveSpec (p : Proposal) (policy : List PolicyItem)
    (num_council now : Nat) :
    p.vote_status policy num_council now = resolveSpec p policy num_council now := by
  simp only [Proposal.vote_status, resolveSpec, maxRuleVotes,
    vote_requirement_eq_requiredVotes, getD_last_eq_getLastD, ge_iff_le,
    gt_iff_lt]

/-! ### The contract state and environment (lib.rs) -/

/-- Modelled from the spec: the 0.5 revision of proposal.rs (whose
`vote_status` takes a single `PolicyItem`, as lib.rs passes) is absent from
src. Spec 4.1: "A simplified single-rule variant exists where resolution is
binary: reaching the single threshold before the deadline yields `Accepted`;
missing it by deadline yields `Rejected`." The in-src tests corroborate this
(test_resolute_policy, test_resolute_policy_fail,
test_change_bond_proposal_fail). -/
def Proposal.vote_status_single (p : Proposal) (policy : PolicyItem)
    (num_council now : Nat) : ProposalStatus :=
  if policy.num_votes num_council ≤ p.vote_yes then ProposalStatus.Success
  else if p.vote_period_end < now then ProposalStatus.Reject
  else ProposalStatus.Vote

/-- `RESOLUTE_POLICY` (lib.rs): fixed policy for market-resolution
proposals, an absolute 4 votes. -/
def RESOLUTE_POLICY : PolicyItem :=
  { max_amount := 0, votes := NumOrRatio.Number 4 }

/-- `MAX_DESCRIPTION_LENGTH` (lib.rs). -/
def MAX_DESCRIPTION_LENGTH : Nat := 280

/-- The contract state (lib.rs `FluxDAO`). `council` models the
`UnorderedSet` (insertion keeps elements unique), `proposals` the `Vector`,
`last_voted` the `UnorderedMap`. -/
structure FluxDAO where
  purpose : String
  bond : Nat
  vote_period : Nat
  grace_period : Nat
  policy : PolicyItem
  council : List String
  proposals : List Proposal
  last_voted : List (String × Nat)
  protocol_address : String
deriving DecidableEq, Repr

/-- The call environment supplied by the NEAR runtime (mirrors the fields of
`VMContext` the contract reads). -/
structure VMContext where
  current_account_id : String
  predecessor_account_id : String
  block_timestamp : Nat
  attached_deposit : Nat
deriving DecidableEq, Repr

/-- `UnorderedMap::insert`: overwrite the value when the key is present,
append otherwise. -/
def mapInsert (m : List (String × Nat)) (k : String) (v : Nat) :
    List (String × Nat) :=
  if m.any (fun kv => kv.1 == k) then
    m.map (fun kv => if kv.1 == k then (k, v) else kv)
  else
    m ++ [(k, v)]

/-- `UnorderedMap::get`. -/
def mapGet (m : List (String × Nat)) (k : String) : Option Nat :=
  match m.find? (fun kv => kv.1 == k) with
  | some kv => some kv.2
  | none => none

/-- `ProposalInput` (lib.rs 0.5 revision: description and kind; targets live
inside the kind). -/
structure ProposalInput where
  description : String
  kind : ProposalKind
deriving DecidableEq, Repr

/-- Result of a state-mutating call: the new state plus the currency
transfers (`Promise::new(target).transfer(amount)`) and delegated protocol
calls (`flux_protocol::...`) it issued, in issue order. -/
structure CallResult where
  dao : FluxDAO
  transfers : List (String × Nat)
  protocol_calls : List String
deriving DecidableEq, Repr

/-- `FluxDAO::add_proposal` (lib.rs): council-gated, bounded description,
bond attached; appends a fresh `Vote`-status proposal and returns its
index. -/
def FluxDAO.add_proposal (dao : FluxDAO) (ctx : VMContext)
    (input : ProposalInput) : Except String (Nat × FluxDAO) :=
  if ¬ (input.description.length < MAX_DESCRIPTION_LENGTH) then
    Except.error "Description length is too long"
  else if ¬ (ctx.predecessor_account_id ∈ dao.council) then
    Except.error "Only council can create proposals"
  else if ¬ (dao.bond ≤ ctx.attached_deposit) then
    Except.error "Not enough deposit"
  else
    let p : Proposal :=
      { status := ProposalStatus.Vote
        proposer := ctx.predecessor_account_id
        description := input.description
        kind := input.kind
        last_vote := 0
        vote_period_end := ctx.block_timestamp + dao.vote_period
        vote_yes := 0
        vote_no := 0
        votes := [] }
    Except.ok (dao.proposals.length, { dao with proposals := dao.proposals ++ [p] })

/-- The u64 addition `from_index_u + limit_u` of lib.rs `get_proposals`:
both operands are caller-supplied u64s, so the sum wraps modulo 2^64 (the
Rust release default; with overflow-checks the call would panic instead —
either way the unbounded sum is not what the program computes). -/
def u64_wrapping_add (a b : Nat) : Nat :=
  (a + b) % 18446744073709551616

/-- `FluxDAO::get_proposals` (lib.rs): the proposals at indices
`from_index .. min(from_index + limit, len)` with the sum computed in u64
(wrapping), each fetched with `get(index).unwrap()` (`none` would model the
unwrap panicking). -/
def FluxDAO.get_proposals (dao : FluxDAO) (from_index limit : Nat) :
    Option (List Proposal) :=
  (List.range' from_index
      (min (u64_wrapping_add from_index limit) dao.proposals.length - from_index)).mapM
    (fun index => dao.proposals[index]?)

/-- `FluxDAO::update_vote_status` (lib.rs): market-resolution proposals are
re-evaluated against the fixed `RESOLUTE_POLICY`, everything else against
the configured policy. -/
def FluxDAO.update_vote_status (dao : FluxDAO) (p : Proposal) (now : Nat) :
    ProposalStatus :=
  match p.kind with
  | ProposalKind.ResoluteMarket _ _ =>
    p.vote_status_single RESOLUTE_POLICY dao.council.length now
  | _ =>
    p.vote_status_single dao.policy dao.council.length now

/-- `FluxDAO::vote` (lib.rs): council-gated; the proposal must exist, be in
active voting, the deadline must not have elapsed, and the caller must not
have voted yet. Records the vote, updates `last_voted`, re-evaluates the
status, and stamps `last_vote`. -/
def FluxDAO.vote (dao : FluxDAO) (ctx : VMContext) (id : Nat) (v : Vote) :
    Except String FluxDAO :=
  if ¬ (ctx.predecessor_account_id ∈ dao.council) then
    Except.error "Only council can vote"
  else
    match dao.proposals[id]? with
    | none => Except.error "No proposal with such id"
    | some proposal =>
      if ¬ (proposal.status = ProposalStatus.Vote) then
        Except.error "Proposal not active voting"
      else if ¬ (ctx.block_timestamp < proposal.vote_period_end) then
        Except.error "voting period ended"
      else if proposal.votes.any (fun kv => kv.1 == ctx.predecessor_account_id) then
        Except.error "Already voted"
      else
        let p1 :=
          match v with
          | Vote.Yes => { proposal with vote_yes := proposal.vote_yes + 1 }
          | Vote.No => { proposal with vote_no := proposal.vote_no + 1 }
        let p2 := { p1 with votes := p1.votes ++ [(ctx.predecessor_account_id, v)] }
        let last_voted := mapInsert dao.last_voted ctx.predecessor_account_id id
        let p3 := { p2 with status := dao.update_vote_status p2 ctx.block_timestamp }
        let p4 := { p3 with last_vote := ctx.block_timestamp }
        Except.ok { dao with proposals := dao.proposals.set id p4, last_voted := last_voted }

/-- `FluxDAO::proposal_success` (lib.rs): the callback tail shared by
`finalize` and the external-confirmation callback — requires `Success`
status, stores `Finalized`, and transfers the bond when positive. -/
def FluxDAO.proposal_success (dao : FluxDAO) (id : Nat) (proposal : Proposal)
    (bond : Nat) : Except String CallResult :=
  if ¬ (proposal.status = ProposalStatus.Success) then
    Except.error "Wrong status on callback"
  else
    let p := { proposal with status := ProposalStatus.Finalized }
    let dao := { dao with proposals := dao.proposals.set id p }
    if 0 < bond then
      Except.ok { dao := dao, transfers := [(p.proposer, bond)], protocol_calls := [] }
    else
      Except.ok { dao := dao, transfers := [], protocol_calls := [] }

/-- Outcome of the delegated external call, as observed by the confirmation
callback (`env::promise_result(0)`). -/
inductive PromiseRes where
  | Successful
  | Failed
deriving DecidableEq, Repr

/-- `FluxDAO::ft_resolve_protocol_call` (lib.rs): the external-confirmation
callback. `utils::assert_self` is modelled from the spec (utils.rs in src
lacks it): "callable only by the engine itself — fails with `Unauthorized`
otherwise". On a successful promise, runs `proposal_success` with the
current bond; on a failed promise, does nothing. -/
def FluxDAO.ft_resolve_protocol_call (dao : FluxDAO) (ctx : VMContext)
    (id : Nat) (res : PromiseRes) : Except String CallResult :=
  if ¬ (ctx.predecessor_account_id = ctx.current_account_id) then
    Except.error "Unauthorized"
  else
    match dao.proposals[id]? with
    | none => Except.error "No proposal with such id"
    | some proposal =>
      match res with
      | PromiseRes.Successful => dao.proposal_success id proposal dao.bond
      | PromiseRes.Failed =>
        Except.ok { dao := dao, transfers := [], protocol_calls := [] }

/-- `FluxDAO::kick_user` (lib.rs): refuse while the member's most recent
vote sits on a still-open proposal — unless that proposal is a
`RemoveCouncil` targeting the very member — then remove from the council
(`UnorderedSet::remove` returning `false` is the not-in-council panic). -/
def FluxDAO.kick_user (dao : FluxDAO) (account_id : String) :
    Except String FluxDAO :=
  let removed : Except String FluxDAO :=
    if account_id ∈ dao.council then
      Except.ok { dao with council := dao.council.erase account_id }
    else
      Except.error "ERR_NOT_IN_COUNCIL"
  match mapGet dao.last_voted account_id with
  | none => removed
  | some proposalid =>
    match dao.proposals[proposalid]? with
    | none => Except.error "ERR_PROPOSAL_NOT_FOUND"
    | some proposal =>
      match proposal.kind with
      | ProposalKind.RemoveCouncil target =>
        if target ≠ account_id then
          if proposal.status = ProposalStatus.Vote then
            Except.error "ERR_VOTING_ACTIVE"
          else removed
        else removed
      | _ =>
        if proposal.status = ProposalStatus.Vote then
          Except.error "ERR_VOTING_ACTIVE"
        else removed

/-- The grace-period guard shared by `finalize` and `finalize_external`
(lib.rs): pause/unpause proposals are exempt; every other kind requires
`block_timestamp > last_vote + grace_period`. -/
def graceActive (dao : FluxDAO) (ctx : VMContext) (p : Proposal) : Bool :=
  match p.kind with
  | ProposalKind.PauseProtocol => false
  | ProposalKind.UnpauseProtocol => false
  | _ => ! decide (p.last_vote + dao.grace_period < ctx.block_timestamp)

/-- The inner side-effect dispatch of `FluxDAO::finalize` on a `Success`
resolution (lib.rs): mutates the state for internal kinds, emits the payout
transfer, and panics on delegated kinds. -/
def FluxDAO.apply_internal (dao : FluxDAO) (kind : ProposalKind) :
    Except String (FluxDAO × List (String × Nat)) :=
  match kind with
  | ProposalKind.NewCouncil target =>
    Except.ok
      ({ dao with
          council := if target ∈ dao.council then dao.council else dao.council ++ [target] },
        [])
  | ProposalKind.RemoveCouncil target =>
    match dao.kick_user target with
    | Except.ok dao2 => Except.ok (dao2, [])
    | Except.error e => Except.error e
  | ProposalKind.Payout target amount => Except.ok (dao, [(target, amount)])
  | ProposalKind.ChangeVotePeriod vp => Except.ok ({ dao with vote_period := vp }, [])
  | ProposalKind.ChangeBond b => Except.ok ({ dao with bond := b }, [])
  | ProposalKind.ChangePolicy pol => Except.ok ({ dao with policy := pol }, [])
  | ProposalKind.ChangePurpose s => Except.ok ({ dao with purpose := s }, [])
  | ProposalKind.ChangeProtocolAddress a =>
    Except.ok ({ dao with protocol_address := a }, [])
  | _ => Except.error "not an internal proposal"

/-- `FluxDAO::finalize` (lib.rs): guard against already-finished proposals
and an active grace period, re-resolve the status, then on `Success` apply
the internal side effect, store the proposal and run `proposal_success`
(storing `Finalized` and returning the bond saved before the side effects);
on `Reject` store `Rejected` and return the bond; anything else panics. -/
def FluxDAO.finalize (dao : FluxDAO) (ctx : VMContext) (id : Nat) :
    Except String CallResult :=
  match dao.proposals[id]? with
  | none => Except.error "No proposal with such id"
  | some proposal =>
    if proposal.status.is_finished then
      Except.error "Proposal already finalized"
    else if graceActive dao ctx proposal then
      Except.error "Grace period active"
    else
      let proposal :=
        { proposal with status := dao.update_vote_status proposal ctx.block_timestamp }
      let actual_bond := dao.bond
      match proposal.status with
      | ProposalStatus.Success =>
        match dao.apply_internal proposal.kind with
        | Except.error e => Except.error e
        | Except.ok (dao1, effect_transfers) =>
          let dao2 := { dao1 with proposals := dao1.proposals.set id proposal }
          match dao2.proposal_success id proposal actual_bond with
          | Except.error e => Except.error e
          | Except.ok r =>
            Except.ok { r with transfers := effect_transfers ++ r.transfers }
      | ProposalStatus.Reject =>
        let proposal2 := { proposal with status := ProposalStatus.Rejected }
        let dao2 := { dao with proposals := dao.proposals.set id proposal2 }
        Except.ok
          { dao := dao2, transfers := [(proposal.proposer, dao.bond)],
            protocol_calls := [] }
      | _ => Except.error "voting period has not expired and no majority vote yet"

/-- `FluxDAO::finalize_external` (lib.rs): same guards and re-resolution as
`finalize`, stores the re-resolved status, then on `Success` issues the
delegated protocol call (panicking on non-delegated kinds) and schedules the
confirmation callback, leaving the proposal pending in `Success`; on
`Reject` stores `Rejected` and returns the bond. -/
def FluxDAO.finalize_external (dao : FluxDAO) (ctx : VMContext) (id : Nat) :
    Except String CallResult :=
  match dao.proposals[id]? with
  | none => Except.error "No proposal with such id"
  | some proposal =>
    if proposal.status.is_finished then
      Except.error "Proposal already finalized"
    else if graceActive dao ctx proposal then
      Except.error "Grace period active"
    else
      let proposal :=
        { proposal with status := dao.update_vote_status proposal ctx.block_timestamp }
      let dao1 := { dao with proposals := dao.proposals.set id proposal }
      match proposal.status with
      | ProposalStatus.Success =>
        match proposal.kind with
        | ProposalKind.ResoluteMarket _ _ =>
          Except.ok { dao := dao1, transfers := [], protocol_calls := ["resolute_market"] }
        | ProposalKind.SetTokenWhitelist _ =>
          Except.ok { dao := dao1, transfers := [], protocol_calls := ["set_token_whitelist"] }
        | ProposalKind.AddTokenWhitelist _ =>
          Except.ok { dao := dao1, transfers := [], protocol_calls := ["add_to_token_whitelist"] }
        | ProposalKind.SetGov _ =>
          Except.ok { dao := dao1, transfers := [], protocol_calls := ["set_gov"] }
        | ProposalKind.PauseProtocol =>
          Except.ok { dao := dao1, transfers := [], protocol_calls := ["pause"] }
        | ProposalKind.UnpauseProtocol =>
          Except.ok { dao := dao1, transfers := [], protocol_calls := ["unpause"] }
        | _ => Except.error "not an external proposal"
      | ProposalStatus.Reject =>
        let proposal2 := { proposal with status := ProposalStatus.Rejected }
        let dao2 := { dao1 with proposals := dao1.proposals.set id proposal2 }
        Except.ok
          { dao := dao2, transfers := [(proposal.proposer, dao1.bond)],
            protocol_calls := [] }
      | _ => Except.error "voting period has not expired and no majority vote yet"

/-- `FluxDAO::exit_dao` (lib.rs): self-service departure. -/
def FluxDAO.exit_dao (dao : FluxDAO) (ctx : VMContext) : Except String FluxDAO :=
  dao.kick_user ctx.predecessor_account_id

/-! ### C4 — monotonicity of the vote requirement -/

theorem getLastD_mem (l : List PolicyItem) (d : PolicyItem) (hne : l ≠ []) :
    l.getLastD d ∈ l := by
  induction l generalizing d with
  | nil => exact absurd rfl hne
  | cons x xs ih =>
    cases xs with
    | nil => simp [List.getLastD]
    | cons y ys =>
      rw [List.getLastD_cons]
      exact List.mem_cons_of_mem x (ih x (by simp))

theorem getLastD_default_irrel (l : List PolicyItem) (d1 d2 : PolicyItem)
    (hne : l ≠ []) : l.getLastD d1 = l.getLastD d2 := by
  cases l with
  | nil => exact absurd rfl hne
  | cons x xs => rw [List.getLastD_cons, List.getLastD_cons]

theorem mem_le_getLastD (l : List PolicyItem) (c : Nat)
    (hmono : l.Pairwise (fun x y => x.num_votes c ≤ y.num_votes c))
    (it : PolicyItem) (hit : it ∈ l) :
    it.num_votes c ≤ (l.getLastD PolicyItem.dflt).num_votes c := by
  induction l with
  | nil => cases hit
  | cons x xs ih =>
    cases xs with
    | nil =>
      rcases List.mem_singleton.mp hit with rfl
      simp [List.getLastD_cons, List.getLastD]
    | cons y ys =>
      rw [List.getLastD_cons]
      rcases List.mem_cons.mp hit with rfl | hmem
      · exact (List.pairwise_cons.mp hmono).1 _ (getLastD_mem _ _ (by simp))
      · rw [getLastD_default_irrel (y :: ys) x PolicyItem.dflt (by simp)]
        exact ih (List.pairwise_cons.mp hmono).2 hmem

theorem requiredVotesScan_cases (l : List PolicyItem) (c a dflt : Nat) :
    requiredVotesScan l c a dflt = dflt ∨
      ∃ j ∈ l, requiredVotesScan l c a dflt = j.num_votes c := by
  induction l with
  | nil => exact Or.inl rfl
  | cons it rest ih =>
    by_cases h : a < it.max_amount
    · refine Or.inr ⟨it, List.mem_cons_self it rest, ?_⟩
      simp [requiredVotesScan, h]
    · rw [show requiredVotesScan (it :: rest) c a dflt
          = requiredVotesScan rest c a dflt by simp [requiredVotesScan, h]]
      rcases ih with h1 | ⟨j, hj, hj2⟩
      · exact Or.inl h1
      · exact Or.inr ⟨j, List.mem_cons_of_mem it hj, hj2⟩

theorem requiredVotesScan_monotone (l : List PolicyItem) (c a1 a2 dflt : Nat)
    (h12 : a1 ≤ a2)
    (hmono : l.Pairwise (fun x y => x.num_votes c ≤ y.num_votes c))
    (hdflt : ∀ it ∈ l, it.num_votes c ≤ dflt) :
    requiredVotesScan l c a1 dflt ≤ requiredVotesScan l c a2 dflt := by
  induction l with
  | nil => exact Nat.le_refl _
  | cons it rest ih =>
    by_cases h1 : a1 < it.max_amount
    · by_cases h2 : a2 < it.max_amount
      · simp [requiredVotesScan, h1, h2]
      · rw [show requiredVotesScan (it :: rest) c a1 dflt = it.num_votes c by
          simp [requiredVotesScan, h1]]
        rw [show requiredVotesScan (it :: rest) c a2 dflt
            = requiredVotesScan rest c a2 dflt by simp [requiredVotesScan, h2]]
        rcases requiredVotesScan_cases rest c a2 dflt with hc | ⟨j, hj, hj2⟩
        · rw [hc]
          exact hdflt it (List.mem_cons_self it rest)
        · rw [hj2]
          exact (List.pairwise_cons.mp hmono).1 j hj
    · have h2 : ¬ a2 < it.max_amount := fun h => h1 (lt_of_le_of_lt h12 h)
      rw [show requiredVotesScan (it :: rest) c a1 dflt
          = requiredVotesScan rest c a1 dflt by simp [requiredVotesScan, h1]]
      rw [show requiredVotesScan (it :: rest) c a2 dflt
          = requiredVotesScan rest c a2 dflt by simp [requiredVotesScan, h2]]
      exact ih (List.pairwise_cons.mp hmono).2
        (fun x hx => hdflt x (List.mem_cons_of_mem it hx))

/-- C4 counterexample: a two-rule policy with strictly increasing ceilings
(10 < 20) whose second rule demands fewer votes than the first; the
requirement drops from 5 to 1 as the amount grows from 5 to 15, so
`vote_requirement` is not monotone in the amount as the claim states. -/
theorem vote_requirement_not_monotone :
    (10 : Nat) < 20 ∧ (5 : Nat) ≤ 15 ∧
      ¬ (vote_requirement
          [⟨10, NumOrRatio.Number 5⟩, ⟨20, NumOrRatio.Number 1⟩] 7 (some 5) ≤
        vote_requirement
          [⟨10, NumOrRatio.Number 5⟩, ⟨20, NumOrRatio.Number 1⟩] 7 (some 15)) := by
  decide

/-- C4 amended: for a policy whose ceilings are strictly increasing AND
whose per-rule vote requirements are non-decreasing along the list, the
required-votes function is monotonically non-decreasing in the amount. -/
theorem vote_requirement_monotone (policy : List PolicyItem) (c a1 a2 : Nat)
    (_hceil : policy.Pairwise (fun x y => x.max_amount < y.max_amount))
    (hmono : policy.Pairwise (fun x y => x.num_votes c ≤ y.num_votes c))
    (h12 : a1 ≤ a2) :
    vote_requirement policy c (some a1) ≤ vote_requirement policy c (some a2) := by
  rw [vote_requirement_eq_requiredVotes, vote_requirement_eq_requiredVotes]
  simp only [requiredVotes]
  exact requiredVotesScan_monotone policy c a1 a2 _ h12 hmono
    (fun it hit => mem_le_getLastD policy c hmono it hit)

/-- C4 amended, witness at a concrete policy. -/
theorem vote_requirement_monotone_witness :
    vote_requirement [⟨10, NumOrRatio.Number 1⟩, ⟨20, NumOrRatio.Number 2⟩] 3 (some 5) ≤
      vote_requirement [⟨10, NumOrRatio.Number 1⟩, ⟨20, NumOrRatio.Number 2⟩] 3 (some 15) :=
  vote_requirement_monotone
    [⟨10, NumOrRatio.Number 1⟩, ⟨20, NumOrRatio.Number 2⟩] 3 5 15
    (by decide) (by decide) (by decide)

/-! ### C10 — the range accessor -/

theorem mapM_getElem_range (ps : List Proposal) (k : Nat) :
    ∀ f : Nat, f + k ≤ ps.length →
      (List.range' f k).mapM (fun i => ps[i]?) = some ((ps.drop f).take k) := by
  induction k with
  | zero =>
    intro f _
    rfl
  | succ k ih =>
    intro f h
    have hf : f < ps.length := by omega
    rw [List.range'_succ, List.mapM_cons]
    have h1 : ps[f]? = some ps[f] := List.getElem?_eq_getElem hf
    have h2 := ih (f + 1) (by omega)
    rw [h1, h2]
    have h3 : ps.drop f = ps[f] :: ps.drop (f + 1) := List.drop_eq_getElem_cons hf
    rw [h3, List.take_succ_cons]
    rfl

/-- A DAO holding ten stored proposals, for the C10 overflow
counterexample. -/
def p10 : Proposal :=
  ⟨ProposalStatus.Vote, "alice", "d", ProposalKind.ChangePurpose "x", 0, 10,
    0, 0, []⟩

def dao10 : FluxDAO :=
  { purpose := "p", bond := 0, vote_period := 10, grace_period := 10,
    policy := ⟨0, NumOrRatio.Number 2⟩, council := ["alice"],
    proposals := List.replicate 10 p10, last_voted := [],
    protocol_address := "pr" }

/-- C10 counterexample: with ten stored proposals, `from_index = 5` and
`limit = 2^64 - 1`, the u64 sum `from_index + limit` wraps to 4, so the
contract computes the empty range `5..min(4,10)` and returns `[]` — while
the claim's slice, indices `5 .. min(5 + limit, 10) = 10` taken in
unbounded arithmetic, has five elements. So "returns exactly the proposals
at indices from_index up to min(from_index + limit, count)" is false of the
program. -/
theorem get_proposals_overflow :
    dao10.proposals.length = 10 ∧
    dao10.get_proposals 5 (2 ^ 64 - 1) = some [] ∧
    ((dao10.proposals.drop 5).take
      (min (5 + (2 ^ 64 - 1)) dao10.proposals.length - 5)).length = 5 :=
  ⟨rfl, rfl, rfl⟩

/-- C10 amended: `get_proposals` never fails and returns exactly the
proposals at indices `from_index .. min(w, count)` in index order, where
`w = (from_index + limit) mod 2^64` is the wrapping u64 sum the code
computes; in particular the result is empty when `from_index` is at or
beyond the proposal count, or when the sum wraps below `from_index`. -/
theorem get_proposals_spec (dao : FluxDAO) (from_index limit : Nat) :
    dao.get_proposals from_index limit =
      some ((dao.proposals.drop from_index).take
        (min (u64_wrapping_add from_index limit) dao.proposals.length - from_index)) := by
  by_cases h : dao.proposals.length < from_index
  · have hk : min (u64_wrapping_add from_index limit) dao.proposals.length
        - from_index = 0 := by
      simp only [u64_wrapping_add]
      omega
    unfold FluxDAO.get_proposals
    rw [hk]
    rfl
  · exact mapM_getElem_range dao.proposals _ from_index
      (by simp only [u64_wrapping_add]; omega)

/-! ### C3 — voting after the deadline -/

/-- A one-member DAO holding a single still-`Vote` proposal whose voting
deadline (10) has already elapsed at the call time used below. -/
def daoC3 : FluxDAO :=
  { purpose := "p", bond := 1, vote_period := 10, grace_period := 10,
    policy := ⟨0, NumOrRatio.Number 1⟩, council := ["alice"],
    proposals :=
      [{ status := ProposalStatus.Vote, proposer := "alice", description := "d",
         kind := ProposalKind.ChangePurpose "q", last_vote := 0,
         vote_period_end := 10, vote_yes := 0, vote_no := 0, votes := [] }],
    last_voted := [], protocol_address := "pr" }

/-- Council caller at timestamp 50, past the deadline 10. -/
def ctxC3 : VMContext :=
  { current_account_id := "alice", predecessor_account_id := "alice",
    block_timestamp := 50, attached_deposit := 0 }

/-- C3 counterexample: on a proposal still in `Vote` status whose deadline
has elapsed, `vote` does not finalize the existing tally — it aborts with
"voting period ended", leaving the proposal untouched (a panic reverts the
call), contrary to the claim that the call "instead finalizes the
proposal". -/
theorem vote_after_deadline_aborts :
    (daoC3.proposals[0]?.map (fun p => p.status) = some ProposalStatus.Vote) ∧
    (daoC3.proposals[0]?.map (fun p => p.vote_period_end) = some 10) ∧
    10 < ctxC3.block_timestamp ∧
    daoC3.vote ctxC3 0 Vote.Yes = Except.error "voting period ended" :=
  ⟨rfl, rfl, by decide, rfl⟩

/-- C3 amended: for every proposal still in `Vote` status whose deadline has
elapsed, a `vote` call by a council member records no vote and does not
finalize anything: it fails with "voting period ended" and the state is
unchanged. -/
theorem vote_after_deadline_errors (dao : FluxDAO) (ctx : VMContext)
    (id : Nat) (v : Vote) (p : Proposal)
    (hcouncil : ctx.predecessor_account_id ∈ dao.council)
    (hp : dao.proposals[id]? = some p)
    (hstatus : p.status = ProposalStatus.Vote)
    (hdeadline : p.vote_period_end ≤ ctx.block_timestamp) :
    dao.vote ctx id v = Except.error "voting period ended" := by
  have h1 : ¬ ctx.block_timestamp < p.vote_period_end := Nat.not_lt.mpr hdeadline
  simp [FluxDAO.vote, hp, hcouncil, hstatus, h1]

/-- C3 amended, witness at the concrete state above. -/
theorem vote_after_deadline_errors_witness :
    daoC3.vote ctxC3 0 Vote.Yes = Except.error "voting period ended" :=
  vote_after_deadline_errors daoC3 ctxC3 0 Vote.Yes
    { status := ProposalStatus.Vote, proposer := "alice", description := "d",
      kind := ProposalKind.ChangePurpose "q", last_vote := 0,
      vote_period_end := 10, vote_yes := 0, vote_no := 0, votes := [] }
    (by decide) (by decide) (by decide) (by decide)

/-! ### C8 — the fixed resolute policy -/

/-- C8: status re-evaluation for a `ResoluteMarket` proposal is the fixed
absolute-4-yes-votes rule, independent of the DAO's configured policy and of
the council size (the outcome is expressed without reference to `dao`);
every other kind is re-evaluated against the configured policy and the
actual council size. -/
theorem update_vote_status_resolute (dao : FluxDAO) (p : Proposal) (now : Nat) :
    (∀ mid pn, p.kind = ProposalKind.ResoluteMarket mid pn →
      dao.update_vote_status p now =
        (if 4 ≤ p.vote_yes then ProposalStatus.Success
         else if p.vote_period_end < now then ProposalStatus.Reject
         else ProposalStatus.Vote)) ∧
    ((∀ mid pn, p.kind ≠ ProposalKind.ResoluteMarket mid pn) →
      dao.update_vote_status p now =
        p.vote_status_single dao.policy dao.council.length now) := by
  constructor
  · intro mid pn hk
    unfold FluxDAO.update_vote_status
    rw [hk]
    simp [Proposal.vote_status_single, RESOLUTE_POLICY, PolicyItem.num_votes]
  · intro hk
    unfold FluxDAO.update_vote_status
    cases hkind : p.kind with
    | ResoluteMarket mid pn => exact absurd hkind (hk mid pn)
    | _ => rfl

/-- A DAO and two proposals (a market resolution with 4 yes votes and a
purpose change) used to witness C8. -/
def daoC8 : FluxDAO :=
  { purpose := "p", bond := 0, vote_period := 10, grace_period := 10,
    policy := ⟨0, NumOrRatio.Number 9⟩, council := ["alice"],
    proposals := [], last_voted := [], protocol_address := "pr" }

def pC8 : Proposal :=
  { status := ProposalStatus.Vote, proposer := "alice", description := "d",
    kind := ProposalKind.ResoluteMarket 0 none, last_vote := 0,
    vote_period_end := 10, vote_yes := 4, vote_no := 0, votes := [] }

def pC8b : Proposal :=
  { pC8 with kind := ProposalKind.ChangePurpose "x", vote_yes := 0 }

/-- C8 witness: the market-resolution proposal resolves `Success` with 4 yes
votes under a configured policy demanding 9, while the ordinary proposal
follows the configured policy. -/
theorem update_vote_status_resolute_witness :
    daoC8.update_vote_status pC8 5 = ProposalStatus.Success ∧
    daoC8.update_vote_status pC8b 5 =
      pC8b.vote_status_single daoC8.policy daoC8.council.length 5 :=
  ⟨((update_vote_status_resolute daoC8 pC8 5).1 0 none rfl).trans (by decide),
    (update_vote_status_resolute daoC8 pC8b 5).2
      (fun mid pn h => ProposalKind.noConfusion h)⟩

/-! ### C9 — the tally invariant -/

/-- The invariant claimed for every stored proposal: the two counters sum to
the size of the voter map. -/
def tally_ok (p : Proposal) : Prop :=
  p.vote_yes + p.vote_no = p.votes.length

/-- C9: a fresh proposal starts with zero counters and an empty voter map
(so the invariant holds at creation), and every successful `vote` call
appends exactly one map entry for a caller not already present, increments
exactly the chosen counter, preserves the invariant, and leaves every other
proposal untouched. -/
theorem tally_invariant :
    (∀ (dao : FluxDAO) (ctx : VMContext) (input : ProposalInput)
        (id : Nat) (dao' : FluxDAO),
      dao.add_proposal ctx input = Except.ok (id, dao') →
        ∃ p, dao'.proposals[id]? = some p ∧
          p.vote_yes = 0 ∧ p.vote_no = 0 ∧ p.votes = [] ∧ tally_ok p) ∧
    (∀ (dao : FluxDAO) (ctx : VMContext) (id : Nat) (v : Vote)
        (dao' : FluxDAO) (p : Proposal),
      dao.vote ctx id v = Except.ok dao' → dao.proposals[id]? = some p →
        (p.votes.any (fun kv => kv.1 == ctx.predecessor_account_id)) = false ∧
        ∃ p', dao'.proposals[id]? = some p' ∧
          p'.votes = p.votes ++ [(ctx.predecessor_account_id, v)] ∧
          (v = Vote.Yes → p'.vote_yes = p.vote_yes + 1 ∧ p'.vote_no = p.vote_no) ∧
          (v = Vote.No → p'.vote_no = p.vote_no + 1 ∧ p'.vote_yes = p.vote_yes) ∧
          (tally_ok p → tally_ok p') ∧
          (∀ j, j ≠ id → dao'.proposals[j]? = dao.proposals[j]?)) := by
  constructor
  · intro dao ctx input id dao' h
    unfold FluxDAO.add_proposal at h
    split at h
    · exact Except.noConfusion h
    · split at h
      · exact Except.noConfusion h
      · split at h
        · exact Except.noConfusion h
        · injection h with h1
          injection h1 with h2 h3
          subst h2; subst h3
          refine ⟨⟨ProposalStatus.Vote, ctx.predecessor_account_id,
            input.description, input.kind, 0,
            ctx.block_timestamp + dao.vote_period, 0, 0, []⟩,
            ?_, rfl, rfl, rfl, rfl⟩
          rw [List.getElem?_append_right (Nat.le_refl _)]
          simp
  · intro dao ctx id v dao' p h hp
    unfold FluxDAO.vote at h
    rw [hp] at h
    split at h
    · exact Except.noConfusion h
    · split at h
      · exact Except.noConfusion h
      · rename_i q hq
        injection hq with hq2
        subst hq2
        split at h
        · exact Except.noConfusion h
        · split at h
          · exact Except.noConfusion h
          · split at h
            · exact Except.noConfusion h
            · rename_i hvoted
              injection h with h1
              subst h1
              have hlt : id < dao.proposals.length :=
                (List.getElem?_eq_some.mp hp).1
              refine ⟨by simp only [Bool.not_eq_true] at hvoted; exact hvoted, ?_⟩
              refine ⟨_, List.getElem?_set_self hlt, ?_, ?_, ?_, ?_, ?_⟩
              · cases v <;> rfl
              · intro hv; subst hv; exact ⟨rfl, rfl⟩
              · intro hv; subst hv; exact ⟨rfl, rfl⟩
              · intro hinv
                unfold tally_ok at hinv ⊢
                cases v <;> simp <;> omega
              · intro j hj
                exact List.getElem?_set_ne (fun hh => hj hh.symm)

/-- Concrete states witnessing C9: a one-member DAO, the state after
creating a proposal, and the state after one yes-vote on it. -/
def daoW : FluxDAO :=
  { purpose := "p", bond := 0, vote_period := 10, grace_period := 10,
    policy := ⟨0, NumOrRatio.Number 2⟩, council := ["alice"],
    proposals := [], last_voted := [], protocol_address := "pr" }

def inputW : ProposalInput :=
  ⟨"d", ProposalKind.ChangePurpose "x"⟩

def ctxW0 : VMContext :=
  ⟨"alice", "alice", 0, 0⟩

def ctxW5 : VMContext :=
  ⟨"alice", "alice", 5, 0⟩

def pNew : Proposal :=
  ⟨ProposalStatus.Vote, "alice", "d", ProposalKind.ChangePurpose "x", 0, 10,
    0, 0, []⟩

def daoW1 : FluxDAO :=
  { daoW with proposals := [pNew] }

def daoW2 : FluxDAO :=
  { daoW1 with
    proposals := [⟨ProposalStatus.Vote, "alice", "d",
      ProposalKind.ChangePurpose "x", 5, 10, 1, 0, [("alice", Vote.Yes)]⟩],
    last_voted := [("alice", 0)] }

/-- C9 witness: the invariant concretely, at creation and after a vote. -/
theorem tally_invariant_witness :
    (∃ p, daoW1.proposals[0]? = some p ∧
      p.vote_yes = 0 ∧ p.vote_no = 0 ∧ p.votes = [] ∧ tally_ok p) ∧
    (∃ p', daoW2.proposals[0]? = some p' ∧ tally_ok p') := by
  constructor
  · exact tally_invariant.1 daoW ctxW0 inputW 0 daoW1 rfl
  · obtain ⟨hany, p', hp', hv, hy, hn, hinv, hother⟩ :=
      tally_invariant.2 daoW1 ctxW5 0 Vote.Yes daoW2 pNew rfl rfl
    exact ⟨p', hp', hinv rfl⟩

/-! ### C5 — the external-confirmation callback -/

/-- C5: the callback is self-only (`Unauthorized` for any other caller); on
a successful external result it requires `Success` status (anything else is
"Wrong status on callback"), stores `Finalized` and transfers the bond to
the proposer; on a failed external result it returns the state completely
unchanged with no transfer. -/
theorem ft_resolve_protocol_call_spec (dao : FluxDAO) (ctx : VMContext)
    (id : Nat) :
    (¬ ctx.predecessor_account_id = ctx.current_account_id →
      ∀ res, dao.ft_resolve_protocol_call ctx id res =
        Except.error "Unauthorized") ∧
    (ctx.predecessor_account_id = ctx.current_account_id →
      ∀ p, dao.proposals[id]? = some p →
        (p.status = ProposalStatus.Success → 0 < dao.bond →
          dao.ft_resolve_protocol_call ctx id PromiseRes.Successful =
            Except.ok
              ⟨{ dao with proposals := dao.proposals.set id { p with status := ProposalStatus.Finalized } },
                [(p.proposer, dao.bond)], []⟩) ∧
        (¬ p.status = ProposalStatus.Success →
          dao.ft_resolve_protocol_call ctx id PromiseRes.Successful =
            Except.error "Wrong status on callback") ∧
        (dao.ft_resolve_protocol_call ctx id PromiseRes.Failed =
          Except.ok ⟨dao, [], []⟩)) := by
  constructor
  · intro hne res
    unfold FluxDAO.ft_resolve_protocol_call
    rw [if_pos hne]
  · intro heq p hp
    refine ⟨?_, ?_, ?_⟩
    · intro hs hb
      simp [FluxDAO.ft_resolve_protocol_call, heq, hp,
        FluxDAO.proposal_success, hs, hb]
    · intro hs
      simp [FluxDAO.ft_resolve_protocol_call, heq, hp,
        FluxDAO.proposal_success, hs]
    · simp [FluxDAO.ft_resolve_protocol_call, heq, hp]

/-- A two-member DAO with bond 2 holding a `Success` market proposal, for
witnessing C5. -/
def pC5 : Proposal :=
  ⟨ProposalStatus.Success, "alice", "d", ProposalKind.ResoluteMarket 0 none,
    0, 10, 4, 0, []⟩

def daoC5 : FluxDAO :=
  { purpose := "p", bond := 2, vote_period := 10, grace_period := 10,
    policy := ⟨0, NumOrRatio.Number 1⟩, council := ["alice"],
    proposals := [pC5], last_voted := [], protocol_address := "pr" }

def ctxSelf : VMContext :=
  ⟨"dao", "dao", 100, 0⟩

def ctxOther : VMContext :=
  ⟨"dao", "mallory", 100, 0⟩

/-- C5 witness: the three callback behaviours at a concrete state. -/
theorem ft_resolve_protocol_call_spec_witness :
    daoC5.ft_resolve_protocol_call ctxOther 0 PromiseRes.Successful =
      Except.error "Unauthorized" ∧
    daoC5.ft_resolve_protocol_call ctxSelf 0 PromiseRes.Successful =
      Except.ok
        ⟨{ daoC5 with proposals := daoC5.proposals.set 0 { pC5 with status := ProposalStatus.Finalized } },
          [("alice", 2)], []⟩ ∧
    daoC5.ft_resolve_protocol_call ctxSelf 0 PromiseRes.Failed =
      Except.ok ⟨daoC5, [], []⟩ := by
  refine ⟨?_, ?_, ?_⟩
  · exact (ft_resolve_protocol_call_spec daoC5 ctxOther 0).1 (by decide)
      PromiseRes.Successful
  · exact ((ft_resolve_protocol_call_spec daoC5 ctxSelf 0).2 rfl pC5 rfl).1
      rfl (by decide)
  · exact ((ft_resolve_protocol_call_spec daoC5 ctxSelf 0).2 rfl pC5 rfl).2.2

/-! ### C2 — bond return on finalization -/

theorem kick_user_proposals (dao : FluxDAO) (a : String) (dao2 : FluxDAO)
    (h : dao.kick_user a = Except.ok dao2) :
    dao2.proposals = dao.proposals ∧ dao2.bond = dao.bond := by
  unfold FluxDAO.kick_user at h
  repeat' split at h
  all_goals
    first
      | exact Except.noConfusion h
      | (injection h with h1; subst h1; exact ⟨rfl, rfl⟩)

theorem apply_internal_proposals (dao : FluxDAO) (kind : ProposalKind)
    (dao1 : FluxDAO) (tr : List (String × Nat))
    (h : dao.apply_internal kind = Except.ok (dao1, tr)) :
    dao1.proposals = dao.proposals := by
  unfold FluxDAO.apply_internal at h
  cases kind with
  | RemoveCouncil target =>
    simp only at h
    split at h
    · rename_i dao2 hk
      injection h with h1
      injection h1 with h2 h3
      subst h2
      exact (kick_user_proposals dao target dao2 hk).1
    · exact Except.noConfusion h
  | NewCouncil target =>
    injection h with h1; injection h1 with h2 h3; subst h2; rfl
  | Payout target amount =>
    injection h with h1; injection h1 with h2 h3; subst h2; rfl
  | ChangeVotePeriod vp =>
    injection h with h1; injection h1 with h2 h3; subst h2; rfl
  | ChangeBond b =>
    injection h with h1; injection h1 with h2 h3; subst h2; rfl
  | ChangePolicy pol =>
    injection h with h1; injection h1 with h2 h3; subst h2; rfl
  | ChangePurpose s =>
    injection h with h1; injection h1 with h2 h3; subst h2; rfl
  | ChangeProtocolAddress a =>
    injection h with h1; injection h1 with h2 h3; subst h2; rfl
  | ResoluteMarket mid pn => exact Except.noConfusion h
  | SetTokenWhitelist w => exact Except.noConfusion h
  | AddTokenWhitelist t => exact Except.noConfusion h
  | SetGov g => exact Except.noConfusion h
  | PauseProtocol => exact Except.noConfusion h
  | UnpauseProtocol => exact Except.noConfusion h

/-- C2: whenever `finalize` completes, the stored proposal ends `Rejected`
or `Finalized` (a terminal `Failed` outcome never finalizes — the call
panics instead), and in both cases the bond goes back to the proposer
(`Finalized` skips the transfer only for a zero bond); and the
external-failure callback never moves state or money — a delegated proposal
whose external action failed keeps its bond locked. -/
theorem finalize_bond_return (dao : FluxDAO) (ctx ctx2 : VMContext)
    (id : Nat) (r : CallResult) (p : Proposal)
    (h : dao.finalize ctx id = Except.ok r)
    (hp : dao.proposals[id]? = some p)
    (hself : ctx2.predecessor_account_id = ctx2.current_account_id) :
    (∃ p', r.dao.proposals[id]? = some p' ∧
      (p'.status = ProposalStatus.Rejected ∨ p'.status = ProposalStatus.Finalized) ∧
      (p'.status = ProposalStatus.Rejected → (p.proposer, dao.bond) ∈ r.transfers) ∧
      (p'.status = ProposalStatus.Finalized → 0 < dao.bond →
        (p.proposer, dao.bond) ∈ r.transfers)) ∧
    dao.ft_resolve_protocol_call ctx2 id PromiseRes.Failed =
      Except.ok ⟨dao, [], []⟩ := by
  have hlt : id < dao.proposals.length := (List.getElem?_eq_some.mp hp).1
  constructor
  · unfold FluxDAO.finalize at h
    rw [hp] at h
    split at h
    · rename_i hq
      exact Option.noConfusion hq
    · rename_i q hq
      injection hq with hq2
      subst hq2
      split at h
      · exact Except.noConfusion h
      · split at h
        · exact Except.noConfusion h
        · dsimp only [] at h
          split at h
          · -- Success branch
            split at h
            · exact Except.noConfusion h
            · rename_i dao1 tr happly
              split at h
              · exact Except.noConfusion h
              · rename_i r0 hps
                injection h with h1
                subst h1
                unfold FluxDAO.proposal_success at hps
                split at hps
                · exact Except.noConfusion hps
                · have hprops := apply_internal_proposals dao _ dao1 tr happly
                  split at hps
                  · injection hps with h2
                    subst h2
                    refine ⟨⟨ProposalStatus.Finalized, p.proposer, p.description,
                        p.kind, p.last_vote, p.vote_period_end, p.vote_yes,
                        p.vote_no, p.votes⟩, ?_, Or.inr rfl, ?_, ?_⟩
                    · simp only [List.set_set]
                      exact List.getElem?_set_self (by rw [hprops]; exact hlt)
                    · intro habs
                      exact ProposalStatus.noConfusion habs
                    · intro _ _
                      simp
                  · injection hps with h2
                    subst h2
                    rename_i hbond
                    refine ⟨⟨ProposalStatus.Finalized, p.proposer, p.description,
                        p.kind, p.last_vote, p.vote_period_end, p.vote_yes,
                        p.vote_no, p.votes⟩, ?_, Or.inr rfl, ?_, ?_⟩
                    · simp only [List.set_set]
                      exact List.getElem?_set_self (by rw [hprops]; exact hlt)
                    · intro habs
                      exact ProposalStatus.noConfusion habs
                    · intro _ hb
                      exact absurd hb hbond
          · -- Reject branch
            injection h with h1
            subst h1
            refine ⟨⟨ProposalStatus.Rejected, p.proposer, p.description,
                p.kind, p.last_vote, p.vote_period_end, p.vote_yes,
                p.vote_no, p.votes⟩, ?_, Or.inl rfl, ?_, ?_⟩
            · exact List.getElem?_set_self hlt
            · intro _
              exact List.mem_singleton.mpr rfl
            · intro habs
              exact ProposalStatus.noConfusion habs
          · exact Except.noConfusion h
  · simp [FluxDAO.ft_resolve_protocol_call, hself, hp]

/-- Concrete C2 witness state: a one-member DAO with bond 5 and a proposal
voted down (one no-vote), finalized after the deadline. -/
def pB : Proposal :=
  ⟨ProposalStatus.Vote, "alice", "d", ProposalKind.ChangePurpose "x", 0, 10,
    0, 1, [("alice", Vote.No)]⟩

def daoB : FluxDAO :=
  { purpose := "p", bond := 5, vote_period := 10, grace_period := 10,
    policy := ⟨0, NumOrRatio.Number 1⟩, council := ["alice"],
    proposals := [pB], last_voted := [("alice", 0)], protocol_address := "pr" }

def ctxB : VMContext :=
  ⟨"alice", "alice", 100, 0⟩

def rB : CallResult :=
  ⟨{ daoB with proposals := [⟨ProposalStatus.Rejected, "alice", "d",
      ProposalKind.ChangePurpose "x", 0, 10, 0, 1, [("alice", Vote.No)]⟩] },
    [("alice", 5)], []⟩

/-- C2 witness: the rejected proposal's bond flows back to the proposer, and
a failed external confirmation moves nothing. -/
theorem finalize_bond_return_witness :
    (∃ p', rB.dao.proposals[0]? = some p' ∧
      (p'.status = ProposalStatus.Rejected ∨ p'.status = ProposalStatus.Finalized) ∧
      (p'.status = ProposalStatus.Rejected → ("alice", daoB.bond) ∈ rB.transfers) ∧
      (p'.status = ProposalStatus.Finalized → 0 < daoB.bond →
        ("alice", daoB.bond) ∈ rB.transfers)) ∧
    daoB.ft_resolve_protocol_call ctxSelf 0 PromiseRes.Failed =
      Except.ok ⟨daoB, [], []⟩ :=
  finalize_bond_return daoB ctxB ctxSelf 0 rB pB rfl rfl rfl

/-! ### C7 — terminal statuses -/

/-- C7 amended: once a proposal is `Finalized` or `Rejected` (the statuses
`is_finished` treats as terminal), no `vote` can succeed and both `finalize`
and `finalize_external` fail with "Proposal already finalized". -/
theorem terminal_no_further_action (dao : FluxDAO) (ctx : VMContext)
    (id : Nat) (p : Proposal) (hp : dao.proposals[id]? = some p)
    (hterm : p.status = ProposalStatus.Finalized ∨
      p.status = ProposalStatus.Rejected) :
    (∀ v dao', dao.vote ctx id v ≠ Except.ok dao') ∧
    dao.finalize ctx id = Except.error "Proposal already finalized" ∧
    dao.finalize_external ctx id = Except.error "Proposal already finalized" := by
  have hsv : ¬ p.status = ProposalStatus.Vote := by
    rcases hterm with h | h <;> rw [h] <;>
      exact fun hh => ProposalStatus.noConfusion hh
  have hfin : p.status.is_finished = true := by
    rcases hterm with h | h <;> rw [h] <;> rfl
  refine ⟨?_, ?_, ?_⟩
  · intro v dao' hcontra
    by_cases hc : ctx.predecessor_account_id ∈ dao.council
    · simp [FluxDAO.vote, hp, hsv, hc] at hcontra
    · simp [FluxDAO.vote, hc] at hcontra
  · simp [FluxDAO.finalize, hp, hfin]
  · simp [FluxDAO.finalize_external, hp, hfin]

/-- Concrete C7 states: a `Finalized` proposal, and a `Success` (pending
external) market proposal. -/
def pC7 : Proposal :=
  ⟨ProposalStatus.Finalized, "alice", "d", ProposalKind.ChangePurpose "x",
    0, 10, 1, 0, [("alice", Vote.Yes)]⟩

def daoC7 : FluxDAO :=
  { purpose := "p", bond := 1, vote_period := 10, grace_period := 10,
    policy := ⟨0, NumOrRatio.Number 1⟩, council := ["alice"],
    proposals := [pC7], last_voted := [("alice", 0)], protocol_address := "pr" }

def ctxC7 : VMContext :=
  ⟨"alice", "alice", 100, 0⟩

/-- C7 amended, witness at a `Finalized` proposal. -/
theorem terminal_no_further_action_witness :
    daoC7.vote ctxC7 0 Vote.Yes ≠ Except.ok daoC7 ∧
    daoC7.finalize ctxC7 0 = Except.error "Proposal already finalized" ∧
    daoC7.finalize_external ctxC7 0 = Except.error "Proposal already finalized" := by
  have h := terminal_no_further_action daoC7 ctxC7 0 pC7 rfl (Or.inl rfl)
  exact ⟨h.1 Vote.Yes daoC7, h.2.1, h.2.2⟩

def pC7s : Proposal :=
  ⟨ProposalStatus.Success, "alice", "d", ProposalKind.ResoluteMarket 0 none,
    0, 10, 4, 0, []⟩

def daoC7s : FluxDAO :=
  { purpose := "p", bond := 1, vote_period := 10, grace_period := 10,
    policy := ⟨0, NumOrRatio.Number 1⟩, council := ["a", "b", "c", "d"],
    proposals := [pC7s], last_voted := [], protocol_address := "pr" }

/-- C7 counterexample: a proposal whose status `Success` is neither `Vote`
nor `Delay` — terminal in the claim's sense — yet `finalize_external` does
not fail with "Proposal already finalized": it completes and re-issues the
delegated protocol call. -/
theorem success_still_finalizable :
    pC7s.status ≠ ProposalStatus.Vote ∧ pC7s.status ≠ ProposalStatus.Delay ∧
    daoC7s.finalize_external ctxC7 0 =
      Except.ok ⟨{ daoC7s with proposals := [pC7s] }, [], ["resolute_market"]⟩ :=
  ⟨by decide, by decide, rfl⟩

/-! ### C6 — kicking a member -/

/-- The exact condition under which `kick_user` refuses with
`ERR_VOTING_ACTIVE`: the identity's most recently voted-on proposal is still
in `Vote` status, and is not a `RemoveCouncil` proposal targeting that very
identity. -/
def kickBlocked (dao : FluxDAO) (account : String) : Prop :=
  ∃ pid p, mapGet dao.last_voted account = some pid ∧
    dao.proposals[pid]? = some p ∧ p.status = ProposalStatus.Vote ∧
    (match p.kind with
      | ProposalKind.RemoveCouncil target => target ≠ account
      | _ => True)

/-- C6 amended: `kick_user` fails with `ERR_VOTING_ACTIVE` exactly when the
identity's last vote blocks it (even when the identity is no longer in the
council — the voting-active check runs first); otherwise it removes a
council member, and fails with `ERR_NOT_IN_COUNCIL` for an identity absent
from the council. -/
theorem kick_user_spec (dao : FluxDAO) (account : String)
    (hfound : ∀ pid, mapGet dao.last_voted account = some pid →
      ∃ p, dao.proposals[pid]? = some p) :
    (kickBlocked dao account →
      dao.kick_user account = Except.error "ERR_VOTING_ACTIVE") ∧
    (¬ kickBlocked dao account → account ∈ dao.council →
      dao.kick_user account =
        Except.ok { dao with council := dao.council.erase account }) ∧
    (¬ kickBlocked dao account → ¬ account ∈ dao.council →
      dao.kick_user account = Except.error "ERR_NOT_IN_COUNCIL") := by
  unfold FluxDAO.kick_user
  cases hm : mapGet dao.last_voted account with
  | none =>
    refine ⟨?_, ?_, ?_⟩
    · intro hb
      obtain ⟨pid, p, hm2, _, _, _⟩ := hb
      rw [hm] at hm2
      exact Option.noConfusion hm2
    · intro _ hc
      simp [hc]
    · intro _ hc
      simp [hc]
  | some pid =>
    cases hp : dao.proposals[pid]? with
    | none =>
      obtain ⟨p, hp2⟩ := hfound pid hm
      rw [hp] at hp2
      exact Option.noConfusion hp2
    | some p =>
      have hdet : ∀ pid' p', mapGet dao.last_voted account = some pid' →
          dao.proposals[pid']? = some p' → p' = p := by
        intro pid' p' hm' hp'
        rw [hm] at hm'
        injection hm' with h1
        subst h1
        rw [hp] at hp'
        injection hp' with h2
        exact h2.symm
      cases hkind : p.kind with
      | RemoveCouncil target =>
        by_cases ht : target = account
        · refine ⟨?_, ?_, ?_⟩
          · intro hb
            exfalso
            obtain ⟨pid', p', hm', hp', hs', hk'⟩ := hb
            have := hdet pid' p' hm' hp'
            subst this
            rw [hkind] at hk'
            exact hk' ht
          · intro _ hc
            simp [hp, hkind, ht, hc]
          · intro _ hc
            simp [hp, hkind, ht, hc]
        · by_cases hs : p.status = ProposalStatus.Vote
          · refine ⟨?_, ?_, ?_⟩
            · intro _
              simp [hp, hkind, ht, hs]
            · intro hnb _
              exact absurd ⟨pid, p, hm, hp, hs, by rw [hkind]; exact ht⟩ hnb
            · intro hnb _
              exact absurd ⟨pid, p, hm, hp, hs, by rw [hkind]; exact ht⟩ hnb
          · refine ⟨?_, ?_, ?_⟩
            · intro hb
              exfalso
              obtain ⟨pid', p', hm', hp', hs', hk'⟩ := hb
              have := hdet pid' p' hm' hp'
              subst this
              exact hs hs'
            · intro _ hc
              simp [hp, hkind, ht, hs, hc]
            · intro _ hc
              simp [hp, hkind, ht, hs, hc]
      | _ =>
        by_cases hs : p.status = ProposalStatus.Vote
        · refine ⟨?_, ?_, ?_⟩
          · intro _
            simp [hp, hkind, hs]
          · intro hnb _
            exact absurd ⟨pid, p, hm, hp, hs, by rw [hkind]; trivial⟩ hnb
          · intro hnb _
            exact absurd ⟨pid, p, hm, hp, hs, by rw [hkind]; trivial⟩ hnb
        · refine ⟨?_, ?_, ?_⟩
          · intro hb
            exfalso
            obtain ⟨pid', p', hm', hp', hs', hk'⟩ := hb
            have := hdet pid' p' hm' hp'
            subst this
            exact hs hs'
          · intro _ hc
            simp [hp, hkind, hs, hc]
          · intro _ hc
            simp [hp, hkind, hs, hc]

/-- Concrete C6 state: alice is the only council member; bob (no longer in
the council) last voted on proposal 0, a still-open payout proposal. -/
def pC6 : Proposal :=
  ⟨ProposalStatus.Vote, "alice", "d", ProposalKind.Payout "carol" 7, 0, 10,
    1, 0, [("bob", Vote.Yes)]⟩

def daoC6 : FluxDAO :=
  { purpose := "p", bond := 1, vote_period := 10, grace_period := 10,
    policy := ⟨0, NumOrRatio.Number 2⟩, council := ["alice"],
    proposals := [pC6], last_voted := [("bob", 0)], protocol_address := "pr" }

/-- C6 counterexample: bob is not in the council, yet `kick_user` does not
fail with `ERR_NOT_IN_COUNCIL` — the voting-active check runs first and the
call fails with `ERR_VOTING_ACTIVE`, contradicting "for every identity not
in the council, the call always fails with NotInCouncil". -/
theorem kick_absent_member_voting_active :
    ¬ ("bob" ∈ daoC6.council) ∧
    daoC6.kick_user "bob" = Except.error "ERR_VOTING_ACTIVE" :=
  ⟨by decide, rfl⟩

/-- C6 amended, witness: the blocked identity fails with `ERR_VOTING_ACTIVE`
and an unblocked member is removed. -/
theorem kick_user_spec_witness :
    daoC6.kick_user "bob" = Except.error "ERR_VOTING_ACTIVE" ∧
    daoC6.kick_user "alice" =
      Except.ok { daoC6 with council := daoC6.council.erase "alice" } := by
  constructor
  · have hf : ∀ pid, mapGet daoC6.last_voted "bob" = some pid →
        ∃ p, daoC6.proposals[pid]? = some p := by
      intro pid hpid
      have h0 : mapGet daoC6.last_voted "bob" = some 0 := rfl
      rw [h0] at hpid
      injection hpid with h1
      subst h1
      exact ⟨pC6, rfl⟩
    refine (kick_user_spec daoC6 "bob" hf).1 ⟨0, pC6, rfl, rfl, rfl, ?_⟩
    trivial
  · have hf : ∀ pid, mapGet daoC6.last_voted "alice" = some pid →
        ∃ p, daoC6.proposals[pid]? = some p := by
      intro pid hpid
      have h0 : mapGet daoC6.last_voted "alice" = none := rfl
      rw [h0] at hpid
      exact Option.noConfusion hpid
    refine (kick_user_spec daoC6 "alice" hf).2.1 ?_ (by decide)
    intro hb
    obtain ⟨pid, p', hm', _, _, _⟩ := hb
    have h0 : mapGet daoC6.last_voted "alice" = none := rfl
    rw [h0] at hm'
    exact Option.noConfusion hm'
